import Mathlib

/-!
Shallow embedding of the metrics-derivation and ranking engine of the
argentina-bestvaluegpu repository (src/app.js), and of the secondary
enrichment/generic-comparator variant (the unnamed second script file),
together with theorems checking the specification's claims against it.

JavaScript numbers are idealised as exact rationals extended with the
IEEE special values `Infinity`, `-Infinity` and `NaN` (rounding of finite
doubles is not modelled; every arithmetic step of the source is mapped to
the corresponding exact operation on this extended type, with the IEEE
rules for the special values).
-/

/-- An idealised JavaScript number: an exact rational, `Infinity`,
`-Infinity`, or `NaN`. -/
inductive JNum where
  | num (q : ℚ)
  | inf
  | ninf
  | nan
deriving DecidableEq, Repr

namespace JNum

/-- IEEE addition on idealised JS numbers. -/
def jadd : JNum → JNum → JNum
  | nan, _ => nan
  | _, nan => nan
  | num p, num q => num (p + q)
  | num _, inf => inf
  | num _, ninf => ninf
  | inf, num _ => inf
  | inf, inf => inf
  | inf, ninf => nan
  | ninf, num _ => ninf
  | ninf, inf => nan
  | ninf, ninf => ninf

/-- IEEE subtraction on idealised JS numbers. -/
def jsub : JNum → JNum → JNum
  | nan, _ => nan
  | _, nan => nan
  | num p, num q => num (p - q)
  | num _, inf => ninf
  | num _, ninf => inf
  | inf, num _ => inf
  | inf, inf => nan
  | inf, ninf => inf
  | ninf, num _ => ninf
  | ninf, inf => ninf
  | ninf, ninf => nan

/-- IEEE multiplication on idealised JS numbers. -/
def jmul : JNum → JNum → JNum
  | nan, _ => nan
  | _, nan => nan
  | num p, num q => num (p * q)
  | num p, inf => if 0 < p then inf else if p < 0 then ninf else nan
  | num p, ninf => if 0 < p then ninf else if p < 0 then inf else nan
  | inf, num q => if 0 < q then inf else if q < 0 then ninf else nan
  | ninf, num q => if 0 < q then ninf else if q < 0 then inf else nan
  | inf, inf => inf
  | inf, ninf => ninf
  | ninf, inf => ninf
  | ninf, ninf => inf

/-- IEEE division on idealised JS numbers.  Division of a nonzero finite
value by (positive) zero yields a signed infinity, `0 / 0` is `NaN`
(negative zero is not modelled: every finite JS value of the source data
is an ordinary number, so zero denominators are `+0`). -/
def jdiv : JNum → JNum → JNum
  | nan, _ => nan
  | _, nan => nan
  | num p, num q =>
      if q = 0 then (if 0 < p then inf else if p < 0 then ninf else nan)
      else num (p / q)
  | num _, inf => num 0
  | num _, ninf => num 0
  | inf, num q => if 0 ≤ q then inf else ninf
  | ninf, num q => if 0 ≤ q then ninf else inf
  | inf, inf => nan
  | inf, ninf => nan
  | ninf, inf => nan
  | ninf, ninf => nan

/-- The JS `<` comparison on numbers: any comparison with `NaN` is false. -/
def jlt : JNum → JNum → Bool
  | nan, _ => false
  | _, nan => false
  | num p, num q => decide (p < q)
  | num _, inf => true
  | num _, ninf => false
  | inf, _ => false
  | ninf, num _ => true
  | ninf, inf => true
  | ninf, ninf => false

/-- The JS `>` comparison on numbers (`a > b` behaves as `b < a`). -/
def jgt (a b : JNum) : Bool := jlt b a

end JNum

open JNum

/-- A raw GPU record as loaded from `data/gpus.json` (the fields read by
the engine; numeric fields are ordinary finite JS numbers). -/
structure Gpu where
  name : String
  algo : String
  hashrate : ℚ
  power : ℚ
  priceArs : ℚ
  dailyProfitUsd : ℚ
deriving DecidableEq, Repr

/-- `const USD_ARS = 1000` in src/app.js. -/
def USD_ARS : ℚ := 1000

/-- `const ENERGY_ARS_PER_KWH = 80` in src/app.js. -/
def ENERGY_ARS_PER_KWH : ℚ := 80

/-- The object returned by `gpuMetrics` in src/app.js; it has exactly
these six properties. -/
structure Metrics where
  efficiency : JNum
  dailyRevenueArs : JNum
  dailyEnergyCostArs : JNum
  dailyNetArs : JNum
  roiDays : JNum
  score : JNum
deriving DecidableEq, Repr

/-- `function gpuMetrics(gpu)` of src/app.js, line for line:
`efficiency = gpu.hashrate / gpu.power`,
`dailyRevenueArs = gpu.dailyProfitUsd * USD_ARS`,
`dailyEnergyKwh = (gpu.power / 1000) * 24`,
`dailyEnergyCostArs = dailyEnergyKwh * ENERGY_ARS_PER_KWH`,
`dailyNetArs = dailyRevenueArs - dailyEnergyCostArs`,
`roiDays = dailyNetArs > 0 ? gpu.priceArs / dailyNetArs : Infinity`,
`score = dailyNetArs * efficiency`. -/
def gpuMetrics (gpu : Gpu) : Metrics :=
  let efficiency := jdiv (num gpu.hashrate) (num gpu.power)
  let dailyRevenueArs := jmul (num gpu.dailyProfitUsd) (num USD_ARS)
  let dailyEnergyKwh := jmul (jdiv (num gpu.power) (num 1000)) (num 24)
  let dailyEnergyCostArs := jmul dailyEnergyKwh (num ENERGY_ARS_PER_KWH)
  let dailyNetArs := jsub dailyRevenueArs dailyEnergyCostArs
  let roiDays :=
    if jgt dailyNetArs (num 0) then jdiv (num gpu.priceArs) dailyNetArs else inf
  let score := jmul dailyNetArs efficiency
  { efficiency := efficiency
    dailyRevenueArs := dailyRevenueArs
    dailyEnergyCostArs := dailyEnergyCostArs
    dailyNetArs := dailyNetArs
    roiDays := roiDays
    score := score }

/-- The value of a JS property access on the metrics object: either one of
its six numeric properties, or `undefined` for any other property name. -/
inductive MVal where
  | undefined
  | mnum (n : JNum)
deriving DecidableEq, Repr

/-- Property access `m.key` on the object returned by `gpuMetrics`: the
object has exactly the six properties listed in `Metrics`; any other name
(in particular `hashrate` and `priceArs`, which the sort comparator reads)
yields `undefined`. -/
def Metrics.read (m : Metrics) : String → MVal
  | "efficiency" => .mnum m.efficiency
  | "dailyRevenueArs" => .mnum m.dailyRevenueArs
  | "dailyEnergyCostArs" => .mnum m.dailyEnergyCostArs
  | "dailyNetArs" => .mnum m.dailyNetArs
  | "roiDays" => .mnum m.roiDays
  | "score" => .mnum m.score
  | _ => .undefined

/-- JS `ToNumber` on a property value: `undefined` converts to `NaN`. -/
def MVal.toNumber : MVal → JNum
  | .undefined => .nan
  | .mnum n => n

/-- JS subtraction applied to two property values (`ToNumber` on each
operand, then IEEE subtraction). -/
def mvSub (a b : MVal) : JNum := jsub a.toNumber b.toNumber

/-- `needle` is a prefix of `hay` (character by character), the primitive
used to model JS `String.prototype.includes`. -/
def isPrefixCh : List Char → List Char → Bool
  | [], _ => true
  | _ :: _, [] => false
  | a :: as, b :: bs => a = b && isPrefixCh as bs

/-- `hay` contains `needle` as a contiguous substring, the model of JS
`String.prototype.includes`. -/
def containsCh (needle : List Char) : List Char → Bool
  | [] => isPrefixCh needle []
  | b :: bs => isPrefixCh needle (b :: bs) || containsCh needle bs

/-- JS `hay.includes(needle)` on strings. -/
def strIncludes (hay needle : String) : Bool :=
  containsCh needle.toList hay.toList

/-- JS `String.prototype.toLowerCase` (ASCII case mapping, applied
character by character). -/
def strToLower (s : String) : String := ⟨s.data.map Char.toLower⟩

/-- JS `String.prototype.trim`: strip leading and trailing whitespace. -/
def strTrim (s : String) : String :=
  ⟨((s.data.dropWhile Char.isWhitespace).reverse.dropWhile
      Char.isWhitespace).reverse⟩

/-- The effective search text of `applyFilters`:
`document.getElementById("searchInput")?.value.toLowerCase().trim()`.
A missing element short-circuits to `undefined`, which is falsy exactly
like the empty string, so it is modelled as `""`. -/
def searchEff : Option String → String
  | none => ""
  | some s => strTrim (strToLower s)

/-- The effective algorithm selection of `applyFilters`
(`document.getElementById("algoSelect")?.value`); a missing element gives
`undefined`, falsy like `""`. -/
def algoEff : Option String → String
  | none => ""
  | some s => s

/-- The name predicate of the search filter,
`gpu.name.toLowerCase().includes(search)`, guarded by the truthiness test
`if (search)`: an empty effective search text retains every record. -/
def searchPass (sR : Option String) (g : Gpu) : Bool :=
  decide (searchEff sR = "") || strIncludes (strToLower g.name) (searchEff sR)

/-- The algorithm predicate `gpu.algo === algo`, guarded by the truthiness
test `if (algo)`: an empty selection retains every record. -/
def algoPass (aS : Option String) (g : Gpu) : Bool :=
  decide (algoEff aS = "") || g.algo == algoEff aS

/-- The filtering prefix of `applyFilters` (src/app.js lines 128–138):
copy the collection, then apply the search filter when the search text is
truthy, then the algorithm filter when the selection is truthy. -/
def filterStep (sR aS : Option String) (l : List Gpu) : List Gpu :=
  let search := searchEff sR
  let algo := algoEff aS
  let r1 := if search = "" then l
    else l.filter (fun gpu => strIncludes (strToLower gpu.name) search)
  if algo = "" then r1 else r1.filter (fun gpu => gpu.algo == algo)

/-- The comparator body of `result.sort((a, b) => ...)` in `applyFilters`
(src/app.js lines 140–157), translated switch case by switch case.  Every
property is read off the metrics objects `ma`/`mb` exactly as the source
does; `hashrate` and `priceArs` are not properties of the metrics object,
so those reads give `undefined` (see `Metrics.read`). -/
def sortComparator (sort : Option String) (a b : Gpu) : JNum :=
  let ma := gpuMetrics a
  let mb := gpuMetrics b
  if sort = some "hashrate" then mvSub (mb.read "hashrate") (ma.read "hashrate")
  else if sort = some "efficiency" then
    mvSub (mb.read "efficiency") (ma.read "efficiency")
  else if sort = some "price" then mvSub (ma.read "priceArs") (mb.read "priceArs")
  else if sort = some "roi" then mvSub (ma.read "roiDays") (mb.read "roiDays")
  else mvSub (mb.read "score") (ma.read "score")

/-- ECMAScript `SortCompare`: the comparator's numeric result, with `NaN`
coerced to `+0`, reduced to its sign. -/
def jsCmpInt : JNum → Int
  | .nan => 0
  | .inf => 1
  | .ninf => -1
  | .num q => if q < 0 then -1 else if 0 < q then 1 else 0

/-- `a` may stay before `b` under the comparator result `c a b`:
`Array.prototype.sort` is stable, so `a` precedes `b` in the result
whenever `a` precedes `b` in the input and the comparator does not order
`b` strictly first. -/
def cmpLe (c : Gpu → Gpu → JNum) (a b : Gpu) : Bool :=
  decide (jsCmpInt (c a b) ≤ 0)

/-- Stable insertion: place `a` before the first element it need not
follow.  For a consistent comparator this reproduces the (unique) stable
sort required of `Array.prototype.sort` since ES2019. -/
def insertCmp (le : α → α → Bool) (a : α) : List α → List α
  | [] => [a]
  | b :: l => if le a b then a :: b :: l else b :: insertCmp le a l

/-- Stable sorting of a list, the model of `Array.prototype.sort`. -/
def stableSort (le : α → α → Bool) : List α → List α
  | [] => []
  | a :: l => insertCmp le a (stableSort le l)

/-- The full `applyFilters` pipeline on the loaded collection (src/app.js
lines 121–159), minus the DOM rendering: filter, then stable-sort with the
comparator selected by the sort key. -/
def applyFilters (sR aS sort : Option String) (gpus : List Gpu) : List Gpu :=
  stableSort (cmpLe (sortComparator sort)) (filterStep sR aS gpus)

/-- The module-level mutable state of src/app.js that the ranking pass can
see: the loaded `gpus` collection. -/
structure AppState where
  gpus : List Gpu
deriving DecidableEq

/-- One run of `applyFilters` threaded through the module state: the
function reads `gpus`, copies it (`[...gpus]`), filters and sorts the
copy, and assigns no record field and no module variable, so the state
component of the result is the input state. -/
def applyFiltersRun (st : AppState) (sR aS sort : Option String) :
    AppState × List Gpu :=
  (st, applyFilters sR aS sort st.gpus)

/-- `const conversionRate = 350` in the secondary script file. -/
def conversionRate : ℚ := 350

/-- An enriched GPU record as produced by `enrichGpuData` in the secondary
script file: the spread copy of the raw record plus the three computed
properties. -/
structure EGpu where
  name : String
  algo : String
  hashrate : ℚ
  power : ℚ
  priceArs : ℚ
  dailyProfitUsd : ℚ
  efficiency : JNum
  dailyProfit : JNum
  roi : JNum
deriving DecidableEq, Repr

/-- `Number(x.toFixed(2))`: a finite value is rounded to two decimals
(`toFixed` picks the numerator closest to the value, ties towards the
larger), and `Infinity`/`NaN` round-trip through their string forms
unchanged. -/
def toFixed2Num : JNum → JNum
  | .num q => .num ((⌊q * 100 + 1 / 2⌋ : ℚ) / 100)
  | x => x

/-- `Math.round`: nearest integer, ties towards positive infinity;
`Infinity`, `-Infinity` and `NaN` are returned unchanged. -/
def jround : JNum → JNum
  | .num q => .num (⌊q + 1 / 2⌋ : ℚ)
  | x => x

/-- The per-record body of `function enrichGpuData(data)` in the secondary
script file: a new object spreading the input record and adding
`efficiency = Number((gpu.hashrate / gpu.power).toFixed(2))`,
`dailyProfit = Math.round(gpu.dailyProfitUsd * conversionRate)` and
`roi = Math.round(gpu.priceArs / dailyProfitArs)`. -/
def enrichGpu (gpu : Gpu) : EGpu :=
  let efficiency := toFixed2Num (jdiv (num gpu.hashrate) (num gpu.power))
  let dailyProfitArs := jmul (num gpu.dailyProfitUsd) (num conversionRate)
  let roi := jround (jdiv (num gpu.priceArs) dailyProfitArs)
  { name := gpu.name
    algo := gpu.algo
    hashrate := gpu.hashrate
    power := gpu.power
    priceArs := gpu.priceArs
    dailyProfitUsd := gpu.dailyProfitUsd
    efficiency := efficiency
    dailyProfit := jround dailyProfitArs
    roi := roi }

/-- `enrichGpuData` itself: map the enrichment over the collection,
building a fresh list of fresh objects. -/
def enrichGpuData (data : List Gpu) : List EGpu := data.map enrichGpu

/-- A JS property value of an enriched record: a number, a string, or
`undefined` for a property the record does not have. -/
inductive JPrim where
  | undefined
  | pnum (n : JNum)
  | pstr (s : String)
deriving DecidableEq, Repr

/-- `typeof v === "number"`. -/
def JPrim.isNum : JPrim → Bool
  | .pnum _ => true
  | _ => false

/-- JS `String(v)` on a property value.  Only the string and `undefined`
cases are reachable from `compareValues` (a record's properties are
uniformly numeric or uniformly strings per key, so the string-conversion
branch never receives a number there); the numeric case is filled in with
the decimal-free rational rendering and the IEEE names. -/
def JPrim.jsToString : JPrim → String
  | .undefined => "undefined"
  | .pstr s => s
  | .pnum .inf => "Infinity"
  | .pnum .ninf => "-Infinity"
  | .pnum .nan => "NaN"
  | .pnum (.num q) => toString q

/-- Property access `record[key]` on an enriched record: the record has
exactly the six spread input properties plus the three computed ones. -/
def EGpu.read (g : EGpu) : String → JPrim
  | "name" => .pstr g.name
  | "algo" => .pstr g.algo
  | "hashrate" => .pnum (.num g.hashrate)
  | "power" => .pnum (.num g.power)
  | "priceArs" => .pnum (.num g.priceArs)
  | "dailyProfitUsd" => .pnum (.num g.dailyProfitUsd)
  | "efficiency" => .pnum g.efficiency
  | "dailyProfit" => .pnum g.dailyProfit
  | "roi" => .pnum g.roi
  | _ => .undefined

/-- The JS `<` comparison as `compareValues` exercises it: numeric
comparison between numbers, code-point lexicographic comparison between
strings.  Mixed operands never occur there, because `compareValues`
stringifies both values whenever either is not a number. -/
def jpLt : JPrim → JPrim → Bool
  | .pnum a, .pnum b => jlt a b
  | .pstr a, .pstr b => decide (a < b)
  | _, _ => false

/-- `function compareValues(key, order = "asc")` of the secondary script
file: read the property off both records, compare numerically when both
values are numbers, otherwise compare the lower-cased string conversions;
`order === "asc"` keeps the sign, anything else flips it. -/
def compareValues (key : String) (order : String) (a b : EGpu) : Int :=
  let valueA := a.read key
  let valueB := b.read key
  let isNumber := valueA.isNum && valueB.isNum
  let vA := if isNumber then valueA else .pstr (strToLower valueA.jsToString)
  let vB := if isNumber then valueB else .pstr (strToLower valueB.jsToString)
  if jpLt vA vB then (if order = "asc" then -1 else 1)
  else if jpLt vB vA then (if order = "asc" then 1 else -1)
  else 0

/-- The exact finite value of `dailyNetArs` as a rational: all inputs are
finite and the only division is by the literal `1000`. -/
def netQ (g : Gpu) : ℚ :=
  g.dailyProfitUsd * USD_ARS - g.power / 1000 * 24 * ENERGY_ARS_PER_KWH

/-- The value of a numeric property (only inspected when `isNum` holds). -/
def JPrim.numVal : JPrim → JNum
  | .pnum n => n
  | _ => .nan

/-- Comparison core of `compareValues`: both property values, the
`isNumber` test, the optional string normalisation and the signed result,
as one function of the two values (`compareValues key order a b` is this
applied to `a[key]` and `b[key]`, definitionally). -/
def cmpCore (order : String) (x y : JPrim) : Int :=
  let isNumber := x.isNum && y.isNum
  let vA := if isNumber then x else .pstr (strToLower x.jsToString)
  let vB := if isNumber then y else .pstr (strToLower y.jsToString)
  if jpLt vA vB then (if order = "asc" then -1 else 1)
  else if jpLt vB vA then (if order = "asc" then 1 else -1)
  else 0

/-- The spec's numeric comparison contract: sign of the numeric order
under the JS `<` relation (`NaN` compares equal both ways). -/
def numCmpInt (a b : JNum) : Int :=
  if jlt a b then -1 else if jlt b a then 1 else 0

/-- The spec's case-insensitive lexicographic string contract: sign of the
code-point order of the two (already lower-cased) strings. -/
def strCmpInt (a b : String) : Int :=
  if a < b then -1 else if b < a then 1 else 0

/-- Sample records used for concrete evaluations. -/
def gpuA : Gpu := ⟨"A", "eth", 10, 100, 1000, 1⟩

def gpuB : Gpu := ⟨"B", "eth", 100, 100, 2000, 1⟩

def gpuC : Gpu := ⟨"C", "eth", 10, 100, 5000, 1⟩

def gpuD : Gpu := ⟨"D", "eth", 10, 100, 1000, 1⟩

/-- The example record of the spec (§8), with `exchangeRate = 1000` and
`energyTariffPerKwh = 80` being exactly the module constants. -/
def gpuX : Gpu := ⟨"X", "", 100, 200, 500000, 1⟩

/-- The same record with `dailyProfitUsd = 0`. -/
def gpuX0 : Gpu := ⟨"X", "", 100, 200, 500000, 0⟩

/-- A record violating the `power > 0` contract. -/
def gpuBad : Gpu := ⟨"Bad", "eth", 1, 0, 1, 1⟩

/-- A record with `power = 0` and positive hashrate and profit. -/
def gpuZ : Gpu := ⟨"Z", "z", 100, 0, 1000, 2⟩

/-- Two records with equal best-value scores but different names/prices. -/
def gpuW1 : Gpu := ⟨"W1", "eth", 100, 200, 500000, 1⟩

def gpuW2 : Gpu := ⟨"W2", "eth", 100, 200, 600000, 1⟩

@[simp] theorem jadd_num (p q : ℚ) :
    jadd (num p) (num q) = num (p + q) := rfl

@[simp] theorem jsub_num (p q : ℚ) :
    jsub (num p) (num q) = num (p - q) := rfl

@[simp] theorem jmul_num (p q : ℚ) :
    jmul (num p) (num q) = num (p * q) := rfl

theorem jdiv_num (p q : ℚ) (h : q ≠ 0) :
    jdiv (num p) (num q) = num (p / q) := by
  simp [jdiv, h]

@[simp] theorem jgt_num (p q : ℚ) :
    jgt (num p) (num q) = decide (q < p) := rfl

theorem filterStep_eq_filter (sR aS : Option String) (l : List Gpu) :
    filterStep sR aS l = l.filter (fun g => searchPass sR g && algoPass aS g) := by
  unfold filterStep searchPass algoPass
  by_cases hs : searchEff sR = "" <;> by_cases ha : algoEff aS = "" <;>
    simp [hs, ha, List.filter_filter, beq_iff_eq, Bool.and_comm]

theorem insertCmp_perm (le : α → α → Bool) (a : α) (l : List α) :
    (insertCmp le a l).Perm (a :: l) := by
  induction l with
  | nil => exact List.Perm.refl _
  | cons b t ih =>
      by_cases h : le a b = true
      · simp [insertCmp, h]
      · simp only [insertCmp, h, Bool.false_eq_true, if_false]
        exact (ih.cons b).trans (List.Perm.swap a b t)

theorem stableSort_perm (le : α → α → Bool) (l : List α) :
    (stableSort le l).Perm l := by
  induction l with
  | nil => exact List.Perm.refl _
  | cons a t ih => exact (insertCmp_perm le a (stableSort le t)).trans (ih.cons a)

theorem filter_insertCmp_pos (le : α → α → Bool) (p : α → Bool) (a : α)
    (l : List α) (hpa : p a = true)
    (h : ∀ b ∈ l, p b = true → le a b = true) :
    (insertCmp le a l).filter p = a :: l.filter p := by
  induction l with
  | nil => simp [insertCmp, hpa]
  | cons b t ih =>
      by_cases hab : le a b = true
      · simp [insertCmp, hab, hpa]
      · have hpb : p b = false := by
          cases hb : p b with
          | false => rfl
          | true => exact absurd (h b (by simp) hb) (by simp [hab])
        simp only [insertCmp, hab, Bool.false_eq_true, if_false, List.filter_cons,
          hpb, Bool.false_eq_true, if_false]
        exact ih (fun c hc hpc => h c (by simp [hc]) hpc)

theorem filter_insertCmp_neg (le : α → α → Bool) (p : α → Bool) (a : α)
    (l : List α) (hpa : p a = false) :
    (insertCmp le a l).filter p = l.filter p := by
  induction l with
  | nil => simp [insertCmp, hpa]
  | cons b t ih =>
      by_cases hab : le a b = true
      · simp [insertCmp, hab, hpa]
      · simp only [insertCmp, hab, Bool.false_eq_true, if_false, List.filter_cons]
        rw [ih]

theorem filter_stableSort (le : α → α → Bool) (p : α → Bool) (l : List α)
    (h : ∀ x ∈ l, ∀ y ∈ l, p x = true → p y = true → le x y = true) :
    (stableSort le l).filter p = l.filter p := by
  induction l with
  | nil => rfl
  | cons a t ih =>
      have ih' := ih (fun x hx y hy => h x (by simp [hx]) y (by simp [hy]))
      cases hpa : p a with
      | true =>
          have : (insertCmp le a (stableSort le t)).filter p
              = a :: (stableSort le t).filter p := by
            refine filter_insertCmp_pos le p a _ hpa (fun b hb hpb => ?_)
            have hbt : b ∈ t := (stableSort_perm le t).mem_iff.mp hb
            exact h a (by simp) b (by simp [hbt]) hpa hpb
          simp only [stableSort, this, ih', List.filter_cons, hpa, if_true]
      | false =>
          simp only [stableSort, filter_insertCmp_neg le p a _ hpa, ih',
            List.filter_cons, hpa, Bool.false_eq_true, if_false]

theorem filter_and_eq_filter_mem [DecidableEq α] (p q : α → Bool) (l : List α) :
    l.filter (fun a => p a && q a)
      = (l.filter p).filter (fun a => decide (a ∈ l.filter q)) := by
  rw [List.filter_filter]
  refine List.filter_congr (fun a ha => ?_)
  simp [List.mem_filter, ha, Bool.and_comm]

theorem jlt_asymm (a b : JNum) (h : jlt a b = true) : jlt b a = false := by
  cases a <;> cases b <;> simp_all [jlt]
  exact le_of_lt h

theorem jpLt_asymm (a b : JPrim) (h : jpLt a b = true) : jpLt b a = false := by
  cases a <;> cases b <;> simp_all [jpLt]
  · exact jlt_asymm _ _ h
  · exact le_of_lt h

theorem gpuMetrics_dailyNetArs (g : Gpu) :
    (gpuMetrics g).dailyNetArs = num (netQ g) := by
  simp [gpuMetrics, netQ, jdiv_num _ _ (by norm_num : (1000 : ℚ) ≠ 0)]

theorem gpuMetrics_roiDays (g : Gpu) :
    (gpuMetrics g).roiDays
      = if 0 < netQ g then num (g.priceArs / netQ g) else inf := by
  have h1000 : (1000 : ℚ) ≠ 0 := by norm_num
  by_cases h : 0 < netQ g
  · have hne : netQ g ≠ 0 := ne_of_gt h
    rw [if_pos h]
    unfold netQ at h hne ⊢
    simp [gpuMetrics, jdiv_num _ _ h1000, jdiv_num _ _ hne, jgt_num, h]
  · rw [if_neg h]
    unfold netQ at h
    simp [gpuMetrics, jdiv_num _ _ h1000, jgt_num, h]

theorem algoPass_none (g : Gpu) : algoPass none g = true := by
  simp [algoPass, algoEff]

theorem searchPass_none (g : Gpu) : searchPass none g = true := by
  simp [searchPass, searchEff]

theorem filterStep_none_right (sR : Option String) (l : List Gpu) :
    filterStep sR none l = l.filter (fun g => searchPass sR g) := by
  rw [filterStep_eq_filter]
  exact List.filter_congr (fun a _ => by simp [algoPass_none])

theorem filterStep_none_left (aS : Option String) (l : List Gpu) :
    filterStep none aS l = l.filter (fun g => algoPass aS g) := by
  rw [filterStep_eq_filter]
  exact List.filter_congr (fun a _ => by simp [searchPass_none])

theorem cmpResult_antisymm (o : String) (u v : JPrim) :
    (if jpLt u v then (if o = "asc" then (-1 : Int) else 1)
     else if jpLt v u then (if o = "asc" then 1 else -1) else 0)
    = - (if jpLt v u then (if o = "asc" then (-1 : Int) else 1)
         else if jpLt u v then (if o = "asc" then 1 else -1) else 0) := by
  by_cases h1 : jpLt u v = true
  · have h2 : jpLt v u = false := jpLt_asymm _ _ h1
    by_cases ho : o = "asc" <;> simp [h1, h2, ho]
  · by_cases h2 : jpLt v u = true
    · by_cases ho : o = "asc" <;> simp [h1, h2, ho]
    · simp [h1, h2]

theorem cmpResult_descFlip (u v : JPrim) :
    (if jpLt u v then (1 : Int) else if jpLt v u then -1 else 0)
    = - (if jpLt u v then (-1 : Int) else if jpLt v u then 1 else 0) := by
  by_cases h1 : jpLt u v = true
  · simp [h1]
  · by_cases h2 : jpLt v u = true <;> simp [h1, h2]

theorem cmpCore_antisymm (o : String) (x y : JPrim) :
    cmpCore o x y = - cmpCore o y x := by
  simp only [cmpCore, Bool.and_comm y.isNum x.isNum]
  exact cmpResult_antisymm o _ _

theorem cmpCore_desc (x y : JPrim) :
    cmpCore "desc" x y = - cmpCore "asc" x y := by
  simp only [cmpCore, reduceIte]
  exact cmpResult_descFlip _ _

theorem cmpCore_num (x y : JPrim) (hx : x.isNum = true) (hy : y.isNum = true) :
    cmpCore "asc" x y = numCmpInt x.numVal y.numVal := by
  cases x <;> cases y <;>
    simp_all [cmpCore, jpLt, numCmpInt, JPrim.numVal, JPrim.isNum]

theorem cmpCore_str (x y : JPrim) (h : (x.isNum && y.isNum) = false) :
    cmpCore "asc" x y
      = strCmpInt (strToLower x.jsToString) (strToLower y.jsToString) := by
  simp only [cmpCore, h, Bool.false_eq_true, if_false, strCmpInt, jpLt]
  simp

/-- C1: for every GPU record, `dailyNetArs` is the finite value `netQ` and
`roiDays` follows the sentinel rule of `gpuMetrics`: a strictly positive
net daily return gives the finite ratio `priceArs / dailyNetArs`, a zero
or negative net daily return gives the positive-infinity sentinel; no
division by a non-positive denominator occurs and the computation is a
total function. -/
theorem C1_roiDays_sentinel (g : Gpu) :
    (gpuMetrics g).dailyNetArs = num (netQ g)
    ∧ (gpuMetrics g).roiDays
        = if 0 < netQ g then num (g.priceArs / netQ g) else inf :=
  ⟨gpuMetrics_dailyNetArs g, gpuMetrics_roiDays g⟩

/-- C2: evaluation of the ranking pipeline at the failing inputs.  The
comparator branches for `sortKey = "hashrate"` and `sortKey = "price"`
read `hashrate` and `priceArs` off the metrics objects, which lack those
properties, so the subtraction is `NaN`, `SortCompare` coerces it to `+0`,
and the stable sort leaves the order unchanged: `gpuB` has the strictly
larger hashrate yet stays second, and `gpuC` has the strictly larger price
yet stays first, contradicting the claimed descending-by-hashrate and
ascending-by-price orders. -/
theorem C2_sortKey_reads_missing_fields :
    applyFilters none none (some "hashrate") [gpuA, gpuB] = [gpuA, gpuB]
    ∧ applyFilters none none (some "price") [gpuC, gpuD] = [gpuC, gpuD]
    ∧ sortComparator (some "hashrate") gpuA gpuB = JNum.nan
    ∧ sortComparator (some "price") gpuC gpuD = JNum.nan
    ∧ gpuA.hashrate < gpuB.hashrate
    ∧ gpuD.priceArs < gpuC.priceArs := by decide

/-- C3 counterexample: a record with `power = 0` is not excluded from the
ranking results and is passed to the metrics calculator (which yields the
infinite efficiency sentinel), refuting the claim that such records are
rejected by validation before metrics computation. -/
theorem C3_counterexample_power_zero_not_excluded :
    applyFilters none none none [gpuBad] = [gpuBad]
    ∧ (gpuMetrics gpuBad).efficiency = inf := by
  constructor
  · decide
  · norm_num [gpuMetrics, gpuBad, jdiv]

/-- C3 amended: the pipeline performs no validity check at all — whether a
record appears in the output depends only on the name and algorithm
filters, never on its numeric fields, so records with `power ≤ 0` (or any
other violated numeric constraint) flow through filtering and sorting into
the results and into `gpuMetrics`. -/
theorem C3_amended_no_validation (sR aS sort : Option String) (l : List Gpu)
    (g : Gpu) (hg : g ∈ l) (hs : searchPass sR g = true)
    (ha : algoPass aS g = true) :
    g ∈ applyFilters sR aS sort l := by
  have hf : g ∈ filterStep sR aS l := by
    rw [filterStep_eq_filter]
    exact List.mem_filter.mpr ⟨hg, by simp [hs, ha]⟩
  exact ((stableSort_perm _ _).mem_iff).mpr hf

/-- Witness for C3 amended at the `power = 0` record. -/
theorem C3_amended_witness : gpuBad ∈ applyFilters none none none [gpuBad] :=
  C3_amended_no_validation none none none [gpuBad] gpuBad (by decide)
    (by decide) (by decide)

/-- C4: the filtering step retains a record iff it passes both the
(case-insensitive, substring) name predicate and the exact algorithm
predicate; the combined result equals filtering by the search text alone
intersected with filtering by the algorithm alone; and an empty option is
the same as an absent one (each predicate is identically true when its
option is empty or absent, by definition of `searchPass`/`algoPass`). -/
theorem C4_filter_intersection (sR aS : Option String) (l : List Gpu) :
    filterStep sR aS l = l.filter (fun g => searchPass sR g && algoPass aS g)
    ∧ filterStep sR aS l
        = (filterStep sR none l).filter
            (fun g => decide (g ∈ filterStep none aS l))
    ∧ filterStep sR (some "") l = filterStep sR none l
    ∧ filterStep (some "") aS l = filterStep none aS l := by
  refine ⟨filterStep_eq_filter sR aS l, ?_, rfl, rfl⟩
  rw [filterStep_eq_filter sR aS l, filterStep_none_right]
  simp only [filterStep_none_left]
  exact filter_and_eq_filter_mem _ _ l

/-- C5: the spec's example record with the module constants
(`USD_ARS = 1000`, `ENERGY_ARS_PER_KWH = 80`) yields `efficiency = 0.5`,
`dailyRevenueArs = 1000`, `dailyEnergyCostArs = 384`, `dailyNetArs = 616`,
`roiDays = 62500/77 ≈ 811.7` (within `1/50`), `score = 308`; and the same
record with zero daily profit yields `dailyNetArs = -384`, the infinite
ROI sentinel, and `score = -192`. -/
theorem C5_example_metrics :
    (gpuMetrics gpuX).efficiency = num (1 / 2)
    ∧ (gpuMetrics gpuX).dailyRevenueArs = num 1000
    ∧ (gpuMetrics gpuX).dailyEnergyCostArs = num 384
    ∧ (gpuMetrics gpuX).dailyNetArs = num 616
    ∧ (gpuMetrics gpuX).roiDays = num (62500 / 77)
    ∧ (8117 / 10 : ℚ) - 1 / 50 < 62500 / 77
    ∧ (62500 / 77 : ℚ) < 8117 / 10 + 1 / 50
    ∧ (gpuMetrics gpuX).score = num 308
    ∧ (gpuMetrics gpuX0).dailyNetArs = num (-384)
    ∧ (gpuMetrics gpuX0).roiDays = inf
    ∧ (gpuMetrics gpuX0).score = num (-192) := by
  norm_num [gpuMetrics, gpuX, gpuX0, USD_ARS, ENERGY_ARS_PER_KWH, jdiv_num,
    jgt_num]

/-- C6: the pipeline's sort is stable — for any class of records of the
filtered input on which the selected comparator yields 0 pairwise, the
subsequence of those records in the sorted output equals their subsequence
in the filtered input, i.e. records with equal comparator keys preserve
their relative input order. -/
theorem C6_sort_stable (sR aS sort : Option String) (l : List Gpu)
    (p : Gpu → Bool)
    (h : ∀ x ∈ filterStep sR aS l, ∀ y ∈ filterStep sR aS l,
        p x = true → p y = true → jsCmpInt (sortComparator sort x y) = 0) :
    (applyFilters sR aS sort l).filter p = (filterStep sR aS l).filter p := by
  refine filter_stableSort _ p _ (fun x hx y hy hpx hpy => ?_)
  have h0 := h x hx y hy hpx hpy
  simp [cmpLe, h0]

/-- Witness for C6 at a concrete two-record class with comparator 0. -/
theorem C6_sort_stable_witness :
    (applyFilters none none (some "hashrate") [gpuW1, gpuW2]).filter
        (fun g => decide (g.power = 200))
      = (filterStep none none [gpuW1, gpuW2]).filter
        (fun g => decide (g.power = 200)) :=
  C6_sort_stable none none (some "hashrate") [gpuW1, gpuW2] _ (by decide)

/-- C7: any sort key outside the five recognised ones (and the absent
key) selects the default `bestValue` comparator, so the pipeline output
is identical to the `bestValue` output; the computation is total, so no
error is raised. -/
theorem C7_unknown_sortKey_defaults (s : String)
    (h : s ∉ ["hashrate", "efficiency", "price", "roi", "bestValue"])
    (sR aS : Option String) (l : List Gpu) :
    applyFilters sR aS (some s) l = applyFilters sR aS (some "bestValue") l
    ∧ applyFilters sR aS none l = applyFilters sR aS (some "bestValue") l := by
  have hs1 : s ≠ "hashrate" := fun e => h (by simp [e])
  have hs2 : s ≠ "efficiency" := fun e => h (by simp [e])
  have hs3 : s ≠ "price" := fun e => h (by simp [e])
  have hs4 : s ≠ "roi" := fun e => h (by simp [e])
  have hc : sortComparator (some s) = sortComparator (some "bestValue") := by
    funext a b
    simp [sortComparator, hs1, hs2, hs3, hs4]
  have hn : sortComparator none = sortComparator (some "bestValue") := by
    funext a b
    simp [sortComparator]
  constructor
  · unfold applyFilters
    rw [hc]
  · unfold applyFilters
    rw [hn]

/-- Witness for C7 at the unknown key `"zzz"`. -/
theorem C7_unknown_sortKey_witness :
    "zzz" ∉ ["hashrate", "efficiency", "price", "roi", "bestValue"]
    ∧ applyFilters none none (some "zzz") [gpuA, gpuB]
        = applyFilters none none (some "bestValue") [gpuA, gpuB] :=
  ⟨by decide,
   (C7_unknown_sortKey_defaults "zzz" (by decide) none none [gpuA, gpuB]).1⟩

/-- C8: the generic comparator is two-way consistent
(`compare(a,b) = -compare(b,a)`), `desc` flips the sign of the `asc`
result, and it compares numerically when both property values are numbers
and by case-insensitive lexicographic string comparison otherwise. -/
theorem C8_generic_comparator (key order : String) (a b : EGpu) :
    compareValues key order a b = - compareValues key order b a
    ∧ compareValues key "desc" a b = - compareValues key "asc" a b
    ∧ ((a.read key).isNum = true → (b.read key).isNum = true →
        compareValues key "asc" a b
          = numCmpInt (a.read key).numVal (b.read key).numVal)
    ∧ (((a.read key).isNum && (b.read key).isNum) = false →
        compareValues key "asc" a b
          = strCmpInt (strToLower ((a.read key).jsToString))
              (strToLower ((b.read key).jsToString))) := by
  refine ⟨?_, ?_, fun hx hy => ?_, fun h => ?_⟩
  · exact cmpCore_antisymm order (a.read key) (b.read key)
  · exact cmpCore_desc (a.read key) (b.read key)
  · exact cmpCore_num (a.read key) (b.read key) hx hy
  · exact cmpCore_str (a.read key) (b.read key) h

/-- Witness for C8 at a numeric key and a string key of two enriched
records. -/
theorem C8_generic_comparator_witness :
    compareValues "priceArs" "asc" (enrichGpu gpuA) (enrichGpu gpuB)
      = numCmpInt ((enrichGpu gpuA).read "priceArs").numVal
          ((enrichGpu gpuB).read "priceArs").numVal
    ∧ compareValues "name" "asc" (enrichGpu gpuA) (enrichGpu gpuB)
      = strCmpInt (strToLower (((enrichGpu gpuA).read "name").jsToString))
          (strToLower (((enrichGpu gpuB).read "name").jsToString)) :=
  ⟨(C8_generic_comparator "priceArs" "asc" (enrichGpu gpuA)
      (enrichGpu gpuB)).2.2.1 rfl rfl,
   (C8_generic_comparator "name" "asc" (enrichGpu gpuA)
      (enrichGpu gpuB)).2.2.2 rfl⟩

/-- C9: a ranking pass never mutates the input records: the module state
is returned unchanged, the enrichment builds new objects that carry every
original field unchanged, and every record of the output is a record of
the input collection. -/
theorem C9_no_mutation (st : AppState) (sR aS sort : Option String) :
    (applyFiltersRun st sR aS sort).1 = st
    ∧ (∀ g : Gpu, (enrichGpu g).name = g.name ∧ (enrichGpu g).algo = g.algo
        ∧ (enrichGpu g).hashrate = g.hashrate ∧ (enrichGpu g).power = g.power
        ∧ (enrichGpu g).priceArs = g.priceArs
        ∧ (enrichGpu g).dailyProfitUsd = g.dailyProfitUsd)
    ∧ (∀ g : Gpu, g ∈ (applyFiltersRun st sR aS sort).2 → g ∈ st.gpus) := by
  refine ⟨rfl, fun g => ⟨rfl, rfl, rfl, rfl, rfl, rfl⟩, fun g hg => ?_⟩
  have h1 : g ∈ filterStep sR aS st.gpus := (stableSort_perm _ _).mem_iff.mp hg
  rw [filterStep_eq_filter] at h1
  exact (List.mem_filter.mp h1).1

/-- Witness for C9 at a one-record state. -/
theorem C9_no_mutation_witness :
    (applyFiltersRun ⟨[gpuA]⟩ none none none).1 = ⟨[gpuA]⟩
    ∧ gpuA ∈ (AppState.mk [gpuA]).gpus :=
  ⟨(C9_no_mutation ⟨[gpuA]⟩ none none none).1,
   (C9_no_mutation ⟨[gpuA]⟩ none none none).2.2 gpuA (by decide)⟩

/-- C10: the metrics computation is total and does not detect the
violated `power > 0` precondition: with `power = 0` and positive hashrate
it returns normally, with `efficiency` the positive-infinity value of
`hashrate / 0`, `dailyEnergyCostArs = 0`, and the net daily value equal to
the daily revenue. -/
theorem C10_zero_power_total (g : Gpu) (hp : g.power = 0)
    (hh : 0 < g.hashrate) :
    (gpuMetrics g).efficiency = inf
    ∧ (gpuMetrics g).dailyEnergyCostArs = num 0
    ∧ (gpuMetrics g).dailyRevenueArs = num (g.dailyProfitUsd * USD_ARS)
    ∧ (gpuMetrics g).dailyNetArs = num (g.dailyProfitUsd * USD_ARS) := by
  refine ⟨?_, ?_, ?_, ?_⟩ <;>
    simp [gpuMetrics, jdiv, hp, hh, jdiv_num _ _ (by norm_num : (1000 : ℚ) ≠ 0)]

/-- Witness for C10 at a concrete zero-power record. -/
theorem C10_zero_power_witness :
    (gpuMetrics gpuZ).efficiency = inf
    ∧ (gpuMetrics gpuZ).dailyEnergyCostArs = num 0
    ∧ (gpuMetrics gpuZ).dailyRevenueArs = num (gpuZ.dailyProfitUsd * USD_ARS)
    ∧ (gpuMetrics gpuZ).dailyNetArs = num (gpuZ.dailyProfitUsd * USD_ARS) :=
  C10_zero_power_total gpuZ rfl (by norm_num [gpuZ])
